import Mathlib

/-!
A shallow embedding of the query-fragment builders of the jobly backend:
`sqlForPartialUpdate` (src/helpers/sql.js), `Company.findAll`
(src/models/company.js) and `Job.findAll` (the Job model), together with
theorems about the placeholder-index invariant, the filter validation and
the error behaviour of these functions.

Modelling conventions:
* JavaScript values reaching the builders are modelled by `QVal`: strings,
  numbers (restricted to integers: the builders coerce every numeric filter
  with `parseInt`, and non-integer inputs arrive as strings), the number
  `NaN`, and arrays (query parameters repeated in a request surface as
  arrays of strings).
* `Number(s)` / `parseInt(s)` are modelled for decimal numerals with an
  optional sign and fraction and surrounding blanks; hexadecimal, binary,
  octal and exponent literals and `Infinity` are treated as non-numeric.
* A JS object is modelled as an association list in key-insertion order,
  which is the object's own enumeration order for the string keys used here.
* Database access is external: an outcome records which query was executed
  (unfiltered, or filtered with a WHERE fragment and bound values) or which
  error was thrown before any query ran.
-/

set_option maxRecDepth 4000

/-- A JavaScript value as it can appear in a filter bag or update payload. -/
inductive QVal where
  | vStr (s : String)
  | vNum (n : Int)
  | vNaN
  | vArr (elems : List String)
  deriving DecidableEq, Repr

/-- JS truthiness: the empty string, `0` and `NaN` are falsy; arrays are truthy. -/
def jsTruthy : QVal → Bool
  | QVal.vStr s => s ≠ ""
  | QVal.vNum n => n ≠ 0
  | QVal.vNaN => false
  | QVal.vArr _ => true

/-- JS strict equality `===` on the values the builders push: strings and
numbers compare by value, `NaN` equals nothing (not even itself), and two
array values are distinct objects. -/
def jsStrictEq : QVal → QVal → Bool
  | QVal.vStr a, QVal.vStr b => a = b
  | QVal.vNum a, QVal.vNum b => a = b
  | _, _ => false

/-- `Array.isArray`. -/
def qvalIsArr : QVal → Bool
  | QVal.vArr _ => true
  | _ => false

/-- JS `>` on the numeric variables compared by the range check; any
comparison involving `NaN` is false. -/
def jsGt : QVal → QVal → Bool
  | QVal.vNum a, QVal.vNum b => a > b
  | _, _ => false

/-- `Array.prototype.indexOf`: index of the first strictly-equal element,
`-1` when there is none. -/
def jsIndexOf (l : List QVal) (v : QVal) : Int :=
  match l with
  | [] => -1
  | x :: xs =>
    if jsStrictEq x v then 0
    else
      let r := jsIndexOf xs v
      if r = -1 then -1 else r + 1

/-- The blanks stripped by JS before numeric conversion. -/
def isBlankChar (c : Char) : Bool := c = ' ' || c = '\t' || c = '\n' || c = '\r'

/-- Leading and trailing blanks removed. -/
def trimChars (cs : List Char) : List Char :=
  ((cs.dropWhile isBlankChar).reverse.dropWhile isBlankChar).reverse

/-- An optional leading sign: whether the value is negated, and the rest. -/
def splitSign : List Char → Bool × List Char
  | '+' :: cs => (false, cs)
  | '-' :: cs => (true, cs)
  | cs => (false, cs)

/-- A decimal mantissa: digits, optionally with a fraction; or a fraction
with at least one digit. -/
def decMantissa (cs : List Char) : Bool :=
  let intPart := cs.takeWhile Char.isDigit
  let rest := cs.dropWhile Char.isDigit
  match intPart, rest with
  | [], '.' :: frac => !frac.isEmpty && frac.all Char.isDigit
  | [], _ => false
  | _ :: _, [] => true
  | _ :: _, '.' :: frac => frac.all Char.isDigit
  | _ :: _, _ => false

/-- Whether `Number(s)` yields a non-`NaN` number: blanks-only strings
convert to `0`, otherwise an optionally signed decimal numeral is required
(see the module header for the modelled subset). -/
def strNumeric (s : String) : Bool :=
  let cs := trimChars s.data
  cs.isEmpty || decMantissa (splitSign cs).2

/-- `parseInt(s)`: after blanks and an optional sign, the leading run of
digits; no digits means `NaN` (`none`). -/
def strParseInt (s : String) : Option Int :=
  let cs := trimChars s.data
  let signed := splitSign cs
  let digits := signed.2.takeWhile Char.isDigit
  if digits.isEmpty then none
  else
    let n : Nat := digits.foldl (fun acc c => acc * 10 + (c.toNat - 48)) 0
    some (if signed.1 then -(n : Int) else (n : Int))

/-- `isNaN(v)` for the values reaching the numeric guards.  Array values
never reach them (validation rejects arrays first). -/
def jsIsNaN : QVal → Bool
  | QVal.vNum _ => false
  | QVal.vNaN => true
  | QVal.vStr s => !strNumeric s
  | QVal.vArr _ => true

/-- `parseInt(v)` as the builders use it, producing a number or `NaN`. -/
def jsParseIntQ : QVal → QVal
  | QVal.vNum n => QVal.vNum n
  | QVal.vStr s =>
    match strParseInt s with
    | some n => QVal.vNum n
    | none => QVal.vNaN
  | _ => QVal.vNaN

/-- ASCII `toLowerCase`. -/
def strToLower (s : String) : String := String.mk (s.data.map Char.toLower)

/-- A filter bag / update payload: an object as an association list in
key-insertion order. -/
abbrev Bag := List (String × QVal)

/-- Property access `obj[key]`: the value of the first matching key,
`undefined` (`none`) when absent. -/
def bagGet (q : Bag) (k : String) : Option QVal :=
  match q with
  | [] => none
  | (k', v) :: rest => if k' = k then some v else bagGet rest k

/-- Truthiness of a possibly-`undefined` value. -/
def optTruthy : Option QVal → Bool
  | some v => jsTruthy v
  | none => false

/-- The result of `sqlForPartialUpdate`: the `setCols` string and the bound
values, or the thrown `BadRequestError`'s message. -/
inductive SqlUpdateResult where
  | ok (setCols : String) (values : List QVal)
  | badRequest (msg : String)
  deriving DecidableEq, Repr

/-- `jsToSql[colName] || colName` of src/helpers/sql.js line 14: the mapped
column name falls back to the key when absent or falsy (the empty string is
the only falsy string). -/
def jsToSqlLookup (jsToSql : List (String × String)) (colName : String) : String :=
  match jsToSql with
  | [] => colName
  | (k, v) :: rest =>
    if k = colName then (if v = "" then colName else v) else jsToSqlLookup rest colName

/-- src/helpers/sql.js, `sqlForPartialUpdate(dataToUpdate, jsToSql)`. -/
def sqlForPartialUpdate (dataToUpdate : Bag) (jsToSql : List (String × String)) :
    SqlUpdateResult :=
  let keys := dataToUpdate.map Prod.fst
  if keys.length = 0 then SqlUpdateResult.badRequest "No data"
  else
    let cols := keys.mapIdx fun idx colName =>
      "\"" ++ jsToSqlLookup jsToSql colName ++ "\"=$" ++ Nat.repr (idx + 1)
    SqlUpdateResult.ok (String.intercalate ", " cols) (dataToUpdate.map Prod.snd)

/-- What a `findAll` call does: which query it executed, or which error it
threw before reaching the database. -/
inductive Outcome where
  | unfiltered
  | filtered (whereClause : String) (values : List QVal)
  | badRequest (msg : String)
  | referenceError (ident : String)
  | typeError (msg : String)
  deriving DecidableEq, Repr

/-- The message built at src/models/company.js line 76. -/
def companyInvalidMsg (k : String) : String :=
  "'" ++ k ++ "' is not a valid filter.  Only valid filters are 'name', 'minEmployees', and 'maxEmployees'."

/-- The message built for the jobs listing's invalid-filter error. -/
def jobInvalidMsg (k : String) : String :=
  "'" ++ k ++ "' is not a valid filter.  Only valid filters are 'title', 'minSalary', and 'hasEquity'."

/-- The message both models build for a repeated (array-valued) filter. -/
def dupFilterMsg (k : String) : String :=
  "Can't include '" ++ k ++ "' more than once."

/-- The `for (let property in query)` validation loop shared by both
listings: the first key that is not an allowed filter raises the
invalid-filter message, an array-valued key raises the repeated-filter
message; no violation yields `none`. -/
def validateQuery (validFilters : List String) (invalidMsg : String → String) :
    Bag → Option String
  | [] => none
  | (k, v) :: rest =>
    if ¬ validFilters.contains k then some (invalidMsg k)
    else if qvalIsArr v then some (dupFilterMsg k)
    else validateQuery validFilters invalidMsg rest

def companyValidFilters : List String := ["name", "minEmployees", "maxEmployees"]

def jobValidFilters : List String := ["title", "minSalary", "hasEquity"]

/-- The guard of the string filters (`query.name && typeof query.name ===
'string'`, and likewise `query.title`): the raw value when it is a truthy
string. -/
def strFilterVal : Option QVal → Option String
  | some (QVal.vStr s) => if s = "" then none else some s
  | _ => none

/-- The guard of the numeric filters (`query.x && !isNaN(query.x)` followed
by `parseInt(query.x)`): the coerced value when the raw value is truthy and
`Number`-coercible. -/
def numFilterVal : Option QVal → Option QVal
  | some w => if jsTruthy w && !jsIsNaN w then some (jsParseIntQ w) else none
  | none => none

/-- The guard of the `hasEquity` flag (`query.hasEquity && typeof
query.hasEquity === 'string' && query.hasEquity.toLowerCase() === "true"`). -/
def hasEquityCond : Option QVal → Bool
  | some (QVal.vStr s) => jsTruthy (QVal.vStr s) && strToLower s = "true"
  | _ => false

/-- The local variables of `Company.findAll`'s construction pass
(src/models/company.js lines 87-120) after the three filter blocks ran. -/
structure CompanyVars where
  whereClause : String
  values : List QVal
  name : Option String
  minEmployees : Option QVal
  maxEmployees : Option QVal
  deriving DecidableEq, Repr

/-- src/models/company.js lines 87-120: the construction pass of
`Company.findAll`, filter by filter, with the placeholder index of each
numeric clause derived from `values.indexOf` as in the source. -/
def companyBuild (query : Bag) : CompanyVars :=
  let name := strFilterVal (bagGet query "name")
  let st :=
    match name with
    | some s => ("name ILIKE $1", [QVal.vStr ("%" ++ s ++ "%")])
    | none => ("", ([] : List QVal))
  let minEmployees := numFilterVal (bagGet query "minEmployees")
  let st :=
    match minEmployees with
    | some m =>
      let values := st.2 ++ [m]
      let minEmployeesIdx := jsIndexOf values m + 1
      (st.1 ++ (if minEmployeesIdx = 1 then "num_employees >= $1"
                else " AND num_employees >= $" ++ toString minEmployeesIdx), values)
    | none => st
  let maxEmployees := numFilterVal (bagGet query "maxEmployees")
  let st :=
    match maxEmployees with
    | some m =>
      let values := st.2 ++ [m]
      let maxEmployeesIdx :=
        match minEmployees with
        | some mn =>
          if jsTruthy mn && jsStrictEq mn m then jsIndexOf values m + 2
          else jsIndexOf values m + 1
        | none => jsIndexOf values m + 1
      (st.1 ++ (if maxEmployeesIdx = 1 then "num_employees <= $1"
                else " AND num_employees <= $" ++ toString maxEmployeesIdx), values)
    | none => st
  ⟨st.1, st.2, name, minEmployees, maxEmployees⟩

/-- `Company.findAll(query)` on a bag: the empty bag lists all companies;
otherwise validation, construction, the range check of lines 122-124, the
all-falsy fallback of lines 128-139, and the filtered query. -/
def companyFindAllQuery (query : Bag) : Outcome :=
  if query.length = 0 then Outcome.unfiltered
  else
    match validateQuery companyValidFilters companyInvalidMsg query with
    | some msg => Outcome.badRequest msg
    | none =>
      let s := companyBuild query
      if optTruthy s.minEmployees && optTruthy s.maxEmployees &&
          (match s.minEmployees, s.maxEmployees with
           | some a, some b => jsGt a b
           | _, _ => false) then
        Outcome.badRequest "'minEmployees' cannot be greater than 'maxEmployees'"
      else if s.name.isNone && !optTruthy s.minEmployees && !optTruthy s.maxEmployees then
        Outcome.unfiltered
      else
        Outcome.filtered s.whereClause s.values

/-- `Company.findAll` has a defaulted parameter (`findAll(query = {})`):
a missing argument becomes the empty bag. -/
def companyFindAll (arg : Option Bag) : Outcome :=
  companyFindAllQuery (arg.getD [])

/-- The local variables of `Job.findAll`'s construction pass after the
three filter blocks ran (no variable is declared for `hasEquity`). -/
structure JobVars where
  whereClause : String
  values : List QVal
  title : Option String
  minSalary : Option QVal
  deriving DecidableEq, Repr

/-- The construction pass of `Job.findAll` (title, minSalary, hasEquity),
with the placeholder index of the salary and equity clauses derived from
`values.indexOf` and the `minSalary === 0` special case of the source. -/
def jobBuild (query : Bag) : JobVars :=
  let title := strFilterVal (bagGet query "title")
  let st :=
    match title with
    | some s => ("title ILIKE $1", [QVal.vStr ("%" ++ s ++ "%")])
    | none => ("", ([] : List QVal))
  let minSalary := numFilterVal (bagGet query "minSalary")
  let st :=
    match minSalary with
    | some m =>
      let values := st.2 ++ [m]
      let minSalaryIdx := jsIndexOf values m + 1
      (st.1 ++ (if minSalaryIdx = 1 then "salary >= $1"
                else " AND salary >= $" ++ toString minSalaryIdx), values)
    | none => st
  let st :=
    if hasEquityCond (bagGet query "hasEquity") then
      let values := st.2 ++ [QVal.vNum 0]
      let hasEquityIdx :=
        if minSalary = some (QVal.vNum 0) then jsIndexOf values (QVal.vNum 0) + 2
        else jsIndexOf values (QVal.vNum 0) + 1
      (st.1 ++ (if hasEquityIdx = 1 then "equity > $1"
                else " AND equity > $" ++ toString hasEquityIdx), values)
    else st
  ⟨st.1, st.2, title, minSalary⟩

/-- `Job.findAll(query)` on a bag: the empty bag lists all jobs; otherwise
validation, construction, and the fallback condition `!title && !minSalary
&& minSalary !== 0 && !hasEquity`, whose last conjunct reads the undeclared
name `hasEquity` and so throws a `ReferenceError` whenever the first three
conjuncts hold. -/
def jobFindAllQuery (query : Bag) : Outcome :=
  if query.length = 0 then Outcome.unfiltered
  else
    match validateQuery jobValidFilters jobInvalidMsg query with
    | some msg => Outcome.badRequest msg
    | none =>
      let s := jobBuild query
      if s.title.isNone && !optTruthy s.minSalary && s.minSalary ≠ some (QVal.vNum 0) then
        Outcome.referenceError "hasEquity"
      else
        Outcome.filtered s.whereClause s.values

/-- `Job.findAll` has no defaulted parameter: a missing argument reaches
`Object.keys(undefined)`, which throws a `TypeError`. -/
def jobFindAll : Option Bag → Outcome
  | none => Outcome.typeError "Cannot convert undefined or null to object"
  | some q => jobFindAllQuery q

/-! ## Spec-side models

The spec's placeholder-index invariant (§3, §4.2): indices are positional
counters over the clauses actually applied, in the builders' fixed
evaluation order.  These definitions follow the spec's words and are
compared against the source-derived builders above. -/

/-- The update clauses as the spec describes them: one per key in iteration
order, the clause for the i-th key (1-based `k`) being
`"<physical>"=$<k>`. -/
def updateClauses (jsToSql : List (String × String)) (k : Nat) : List String → List String
  | [] => []
  | key :: rest =>
    ("\"" ++ jsToSqlLookup jsToSql key ++ "\"=$" ++ Nat.repr k) :: updateClauses jsToSql (k + 1) rest

/-- The filters `Company.findAll` applies, in its fixed evaluation order,
as pairs of the clause text up to the placeholder index and the bound
value. -/
def companyAppliedFilters (query : Bag) : List (String × QVal) :=
  (match strFilterVal (bagGet query "name") with
   | some s => [("name ILIKE $", QVal.vStr ("%" ++ s ++ "%"))]
   | none => []) ++
  (match numFilterVal (bagGet query "minEmployees") with
   | some m => [("num_employees >= $", m)]
   | none => []) ++
  (match numFilterVal (bagGet query "maxEmployees") with
   | some m => [("num_employees <= $", m)]
   | none => [])

/-- The filters `Job.findAll` applies, in its fixed evaluation order. -/
def jobAppliedFilters (query : Bag) : List (String × QVal) :=
  (match strFilterVal (bagGet query "title") with
   | some s => [("title ILIKE $", QVal.vStr ("%" ++ s ++ "%"))]
   | none => []) ++
  (match numFilterVal (bagGet query "minSalary") with
   | some m => [("salary >= $", m)]
   | none => []) ++
  (if hasEquityCond (bagGet query "hasEquity") then [("equity > $", QVal.vNum 0)] else [])

/-- The clause texts with positional placeholder indices starting at `k`. -/
def positionalClauses (k : Nat) : List (String × QVal) → List String
  | [] => []
  | (c, _) :: rest => (c ++ Nat.repr k) :: positionalClauses (k + 1) rest

/-- The fragment the spec's invariant prescribes for a list of applied
filters: clauses joined with `" AND "`, the Nth clause's placeholder index
equal to N, and the values in clause order. -/
def positionalFragment (fs : List (String × QVal)) : String × List QVal :=
  (String.intercalate " AND " (positionalClauses 1 fs), fs.map Prod.snd)

/-! ## Helper lemmas -/

lemma updateClauses_length (M : List (String × String)) :
    ∀ (l : List String) (k : Nat), (updateClauses M k l).length = l.length := by
  intro l
  induction l with
  | nil => intro k; rfl
  | cons x xs ih => intro k; simpa [updateClauses] using ih (k + 1)

lemma updateClauses_get (M : List (String × String)) :
    ∀ (l : List String) (k i : Nat) (h : i < (updateClauses M k l).length)
      (h' : i < l.length),
      (updateClauses M k l).get ⟨i, h⟩ =
        "\"" ++ jsToSqlLookup M (l.get ⟨i, h'⟩) ++ "\"=$" ++ Nat.repr (k + i) := by
  intro l
  induction l with
  | nil => intro k i h h'; exact absurd h' (by simp)
  | cons x xs ih =>
    intro k i h h'
    cases i with
    | zero => simp [updateClauses]
    | succ j =>
      have hj : j < (updateClauses M (k + 1) xs).length := by
        simpa [updateClauses] using h
      have hj' : j < xs.length := by simpa using h'
      have := ih (k + 1) j hj hj'
      simpa [updateClauses, Nat.add_comm, Nat.add_assoc, Nat.add_left_comm] using this

lemma mapIdx_eq_updateClauses (M : List (String × String)) (l : List String) :
    (l.mapIdx fun idx colName =>
      "\"" ++ jsToSqlLookup M colName ++ "\"=$" ++ Nat.repr (idx + 1)) =
      updateClauses M 1 l := by
  apply List.ext_get
  · simp [updateClauses_length]
  · intro i h1 h2
    have hl : i < l.length := by simpa using h1
    rw [List.get_mapIdx _ _ _ hl, updateClauses_get M l 1 i h2 hl, Nat.add_comm]

/-! ## Claim theorems: sqlForPartialUpdate -/

/-- C9: `sqlForPartialUpdate({}, M)` fails with a `BadRequest` whose message
is "No data" for every field-name map M, and the empty payload is the only
failing input: every non-empty payload returns a fragment without error. -/
theorem C9_empty_payload_only_error :
    (∀ M, sqlForPartialUpdate [] M = SqlUpdateResult.badRequest "No data") ∧
    (∀ (P : Bag) (M : List (String × String)), P ≠ [] →
      ∃ s vs, sqlForPartialUpdate P M = SqlUpdateResult.ok s vs) := by
  constructor
  · intro M; rfl
  · intro P M hP
    have h : (P.map Prod.fst).length = 0 → False := by
      simpa [List.length_eq_zero] using hP
    simp only [sqlForPartialUpdate, if_neg h]
    exact ⟨_, _, rfl⟩

/-- Witness for C9 at the empty payload and at a one-key payload. -/
theorem C9_witness :
    sqlForPartialUpdate [] [] = SqlUpdateResult.badRequest "No data" ∧
    ∃ s vs, sqlForPartialUpdate [("name", QVal.vStr "x")] [] = SqlUpdateResult.ok s vs :=
  ⟨C9_empty_payload_only_error.1 [],
   C9_empty_payload_only_error.2 [("name", QVal.vStr "x")] [] (by decide)⟩

/-- C3 counterexample: a field-name map entry whose value is the empty
string is present in M, yet the clause uses the key itself (the source's
`jsToSql[colName] || colName` tests truthiness, not presence), so the claim's
"physical = M[key] if the key is present in M" fails. -/
theorem C3_counterexample :
    sqlForPartialUpdate [("numEmployees", QVal.vNum 5000)] [("numEmployees", "")] =
      SqlUpdateResult.ok "\"numEmployees\"=$1" [QVal.vNum 5000] ∧
    SqlUpdateResult.ok "\"numEmployees\"=$1" [QVal.vNum 5000] ≠
      SqlUpdateResult.ok "\"\"=$1" [QVal.vNum 5000] :=
  ⟨rfl, by decide⟩

/-- C3 amended: for every non-empty payload P and map M, the result has one
clause per key of P in iteration order, the i-th clause being
`"<physical>"=$i` (1-based) with physical the M-translation of the key when
that maps to a non-empty string and the key itself otherwise, clauses
joined by ", ", and the values are P's values in clause order; the claim's
example bag yields exactly the claimed fragment. -/
theorem C3_partial_update_shape :
    (∀ (P : Bag) (M : List (String × String)), P ≠ [] →
      sqlForPartialUpdate P M =
        SqlUpdateResult.ok
          (String.intercalate ", " (updateClauses M 1 (P.map Prod.fst)))
          (P.map Prod.snd) ∧
      (updateClauses M 1 (P.map Prod.fst)).length = P.length) ∧
    sqlForPartialUpdate
        [("name", QVal.vStr "Toyota"), ("numEmployees", QVal.vNum 5000)]
        [("numEmployees", "num_employees")] =
      SqlUpdateResult.ok "\"name\"=$1, \"num_employees\"=$2"
        [QVal.vStr "Toyota", QVal.vNum 5000] := by
  constructor
  · intro P M hP
    have h : (P.map Prod.fst).length = 0 → False := by
      simpa [List.length_eq_zero] using hP
    constructor
    · simp only [sqlForPartialUpdate, if_neg h, mapIdx_eq_updateClauses]
    · simp [updateClauses_length]
  · rfl

/-- Witness for C3's amended theorem at the claim's example input. -/
theorem C3_witness :
    sqlForPartialUpdate [("name", QVal.vStr "Toyota"), ("numEmployees", QVal.vNum 5000)]
        [("numEmployees", "num_employees")] =
      SqlUpdateResult.ok
        (String.intercalate ", "
          (updateClauses [("numEmployees", "num_employees")] 1 ["name", "numEmployees"]))
        [QVal.vStr "Toyota", QVal.vNum 5000] := by
  have h := (C3_partial_update_shape.1
    [("name", QVal.vStr "Toyota"), ("numEmployees", QVal.vNum 5000)]
    [("numEmployees", "num_employees")] (by decide)).1
  simpa using h

/-! ## Claim theorems: missing-argument behaviour and the jobs fallback bug -/

/-- C10: `Company.findAll()` with no argument defaults the bag to empty and
executes the unfiltered listing query, while `Job.findAll()` with no
argument throws a `TypeError` from `Object.keys(undefined)` — neither the
unfiltered listing nor a `BadRequest`. -/
theorem C10_missing_bag_divergence :
    companyFindAll none = Outcome.unfiltered ∧
    companyFindAll none = companyFindAllQuery [] ∧
    jobFindAll none = Outcome.typeError "Cannot convert undefined or null to object" ∧
    (∀ msg, jobFindAll none ≠ Outcome.badRequest msg) ∧
    jobFindAll none ≠ Outcome.unfiltered := by
  refine ⟨rfl, rfl, rfl, ?_, by decide⟩
  intro msg h
  exact Outcome.noConfusion h

/-- C2: evaluating `Job.findAll`'s fallback condition at a validated bag in
which no filter qualifies reaches the undeclared name `hasEquity` and throws
a `ReferenceError` — not the unfiltered listing, and not a `BadRequest`.
The same happens when only `hasEquity` qualifies. -/
theorem C2_jobs_fallback_reference_error :
    jobFindAll (some [("hasEquity", QVal.vStr "false")]) = Outcome.referenceError "hasEquity" ∧
    jobFindAll (some [("title", QVal.vStr ""), ("minSalary", QVal.vStr "abc")]) =
      Outcome.referenceError "hasEquity" ∧
    (∀ m, Outcome.referenceError "hasEquity" ≠ Outcome.badRequest m) ∧
    Outcome.referenceError "hasEquity" ≠ Outcome.unfiltered := by
  refine ⟨by decide, by decide, ?_, by decide⟩
  intro m h
  exact Outcome.noConfusion h

/-! ## Validation lemmas -/

lemma validateQuery_some_of_bad_key (vf : List String) (im : String → String) :
    ∀ (q : Bag) (k : String) (v : QVal), (k, v) ∈ q → k ∉ vf →
      ∃ m, validateQuery vf im q = some m := by
  intro q
  induction q with
  | nil => intro k v hm; exact absurd hm (by simp)
  | cons p rest ih =>
    intro k v hm hk
    obtain ⟨k', v'⟩ := p
    by_cases h1 : k' ∈ vf
    · by_cases h2 : qvalIsArr v'
      · exact ⟨dupFilterMsg k', by simp [validateQuery, h1, h2]⟩
      · rcases List.mem_cons.mp hm with heq | hmem
        · exact absurd h1 (by simp_all)
        · obtain ⟨m, hm'⟩ := ih k v hmem hk
          exact ⟨m, by simpa [validateQuery, h1, h2] using hm'⟩
    · exact ⟨im k', by simp [validateQuery, h1]⟩

lemma validateQuery_some_of_arr (vf : List String) (im : String → String) :
    ∀ (q : Bag) (k : String) (elems : List String), (k, QVal.vArr elems) ∈ q →
      ∃ m, validateQuery vf im q = some m := by
  intro q
  induction q with
  | nil => intro k elems hm; exact absurd hm (by simp)
  | cons p rest ih =>
    intro k elems hm
    obtain ⟨k', v'⟩ := p
    by_cases h1 : k' ∈ vf
    · by_cases h2 : qvalIsArr v'
      · exact ⟨dupFilterMsg k', by simp [validateQuery, h1, h2]⟩
      · rcases List.mem_cons.mp hm with heq | hmem
        · refine absurd h2 ?_
          have : v' = QVal.vArr elems := by simp_all
          simp [this, qvalIsArr]
        · obtain ⟨m, hm'⟩ := ih k elems hmem
          exact ⟨m, by simpa [validateQuery, h1, h2] using hm'⟩
    · exact ⟨im k', by simp [validateQuery, h1]⟩

lemma validateQuery_first_bad_key (vf : List String) (im : String → String) :
    ∀ (pre : Bag) (k : String) (v : QVal) (rest : Bag),
      (∀ p ∈ pre, p.1 ∈ vf ∧ qvalIsArr p.2 = false) →
      k ∉ vf →
      validateQuery vf im (pre ++ (k, v) :: rest) = some (im k) := by
  intro pre
  induction pre with
  | nil => intro k v rest _ hk; simp [validateQuery, hk]
  | cons p ps ih =>
    intro k v rest hpre hk
    obtain ⟨hp1, hp2⟩ := hpre p (List.mem_cons_self p ps)
    have := ih k v rest (fun x hx => hpre x (List.mem_cons_of_mem p hx)) hk
    simpa [validateQuery, hp1, hp2] using this

lemma validateQuery_first_arr (vf : List String) (im : String → String) :
    ∀ (pre : Bag) (k : String) (elems : List String) (rest : Bag),
      (∀ p ∈ pre, p.1 ∈ vf ∧ qvalIsArr p.2 = false) →
      k ∈ vf →
      validateQuery vf im (pre ++ (k, QVal.vArr elems) :: rest) = some (dupFilterMsg k) := by
  intro pre
  induction pre with
  | nil => intro k elems rest _ hk; simp [validateQuery, hk, qvalIsArr]
  | cons p ps ih =>
    intro k elems rest hpre hk
    obtain ⟨hp1, hp2⟩ := hpre p (List.mem_cons_self p ps)
    have := ih k elems rest (fun x hx => hpre x (List.mem_cons_of_mem p hx)) hk
    simpa [validateQuery, hp1, hp2] using this

lemma companyFindAllQuery_badRequest_of_validate (q : Bag) (m : String)
    (h : validateQuery companyValidFilters companyInvalidMsg q = some m) :
    companyFindAllQuery q = Outcome.badRequest m := by
  have hq : q.length = 0 → False := by
    intro h0
    rw [List.length_eq_zero.mp h0] at h
    exact Option.noConfusion h
  simp only [companyFindAllQuery, if_neg hq, h]

lemma jobFindAllQuery_badRequest_of_validate (q : Bag) (m : String)
    (h : validateQuery jobValidFilters jobInvalidMsg q = some m) :
    jobFindAllQuery q = Outcome.badRequest m := by
  have hq : q.length = 0 → False := by
    intro h0
    rw [List.length_eq_zero.mp h0] at h
    exact Option.noConfusion h
  simp only [jobFindAllQuery, if_neg hq, h]

/-! ## Claim theorems: filter validation -/

/-- C7 counterexample: a companies bag that contains the disallowed key
"bad" but whose first key is the allowed "name" with an array value fails
with the repeated-filter message, which neither names "bad" nor contains
the allowed-set enumeration. -/
theorem C7_counterexample :
    companyFindAll (some [("name", QVal.vArr ["a", "b"]), ("bad", QVal.vStr "x")]) =
      Outcome.badRequest "Can't include 'name' more than once." ∧
    ¬ ("bad".data <:+: "Can't include 'name' more than once.".data) ∧
    "Can't include 'name' more than once." ≠ companyInvalidMsg "bad" := by
  refine ⟨by decide, by decide, by decide⟩

/-- C7 amended: a non-empty bag containing a key outside the allowed set
always fails with a `BadRequest` before any query; the message names the
offending key and enumerates the allowed set verbatim provided every key
preceding it in iteration order is allowed and not array-valued. -/
theorem C7_invalid_filter_key :
    (∀ (q : Bag) (k : String) (v : QVal), (k, v) ∈ q → k ∉ companyValidFilters →
      ∃ m, companyFindAllQuery q = Outcome.badRequest m) ∧
    (∀ (pre : Bag) (k : String) (v : QVal) (rest : Bag),
      (∀ p ∈ pre, p.1 ∈ companyValidFilters ∧ qvalIsArr p.2 = false) →
      k ∉ companyValidFilters →
      companyFindAllQuery (pre ++ (k, v) :: rest) =
        Outcome.badRequest (companyInvalidMsg k)) ∧
    (∀ (q : Bag) (k : String) (v : QVal), (k, v) ∈ q → k ∉ jobValidFilters →
      ∃ m, jobFindAllQuery q = Outcome.badRequest m) ∧
    (∀ (pre : Bag) (k : String) (v : QVal) (rest : Bag),
      (∀ p ∈ pre, p.1 ∈ jobValidFilters ∧ qvalIsArr p.2 = false) →
      k ∉ jobValidFilters →
      jobFindAllQuery (pre ++ (k, v) :: rest) = Outcome.badRequest (jobInvalidMsg k)) := by
  refine ⟨?_, ?_, ?_, ?_⟩
  · intro q k v hm hk
    obtain ⟨m, hval⟩ := validateQuery_some_of_bad_key companyValidFilters companyInvalidMsg q k v hm hk
    exact ⟨m, companyFindAllQuery_badRequest_of_validate q m hval⟩
  · intro pre k v rest hpre hk
    exact companyFindAllQuery_badRequest_of_validate _ _
      (validateQuery_first_bad_key companyValidFilters companyInvalidMsg pre k v rest hpre hk)
  · intro q k v hm hk
    obtain ⟨m, hval⟩ := validateQuery_some_of_bad_key jobValidFilters jobInvalidMsg q k v hm hk
    exact ⟨m, jobFindAllQuery_badRequest_of_validate q m hval⟩
  · intro pre k v rest hpre hk
    exact jobFindAllQuery_badRequest_of_validate _ _
      (validateQuery_first_bad_key jobValidFilters jobInvalidMsg pre k v rest hpre hk)

/-- Witness for C7 at one-key bags with a disallowed key. -/
theorem C7_witness :
    companyFindAllQuery [("bad", QVal.vStr "x")] =
      Outcome.badRequest (companyInvalidMsg "bad") ∧
    jobFindAllQuery [("nope", QVal.vStr "x")] = Outcome.badRequest (jobInvalidMsg "nope") :=
  ⟨by
    have h := C7_invalid_filter_key.2.1 [] "bad" (QVal.vStr "x") [] (by simp) (by decide)
    simpa using h,
   by
    have h := C7_invalid_filter_key.2.2.2 [] "nope" (QVal.vStr "x") [] (by simp) (by decide)
    simpa using h⟩

/-- C8 counterexample: a companies bag whose allowed key "name" arrived as
an array, but preceded by the disallowed key "bad", fails with the
invalid-filter message, which does not state that "name" was supplied more
than once. -/
theorem C8_counterexample :
    companyFindAll (some [("bad", QVal.vStr "x"), ("name", QVal.vArr ["a", "b"])]) =
      Outcome.badRequest (companyInvalidMsg "bad") ∧
    ¬ ("more than once".data <:+: (companyInvalidMsg "bad").data) ∧
    companyInvalidMsg "bad" ≠ dupFilterMsg "name" := by
  refine ⟨by decide, by decide, by decide⟩

/-- C8 amended: a non-empty bag in which an allowed key's value arrived as
a multi-value sequence always fails with a `BadRequest` before any query;
the message states that that key cannot be supplied more than once provided
every key preceding it in iteration order is allowed and not array-valued. -/
theorem C8_repeated_filter_key :
    (∀ (q : Bag) (k : String) (elems : List String),
      (k, QVal.vArr elems) ∈ q → k ∈ companyValidFilters →
      ∃ m, companyFindAllQuery q = Outcome.badRequest m) ∧
    (∀ (pre : Bag) (k : String) (elems : List String) (rest : Bag),
      (∀ p ∈ pre, p.1 ∈ companyValidFilters ∧ qvalIsArr p.2 = false) →
      k ∈ companyValidFilters →
      companyFindAllQuery (pre ++ (k, QVal.vArr elems) :: rest) =
        Outcome.badRequest (dupFilterMsg k)) ∧
    (∀ (q : Bag) (k : String) (elems : List String),
      (k, QVal.vArr elems) ∈ q → k ∈ jobValidFilters →
      ∃ m, jobFindAllQuery q = Outcome.badRequest m) ∧
    (∀ (pre : Bag) (k : String) (elems : List String) (rest : Bag),
      (∀ p ∈ pre, p.1 ∈ jobValidFilters ∧ qvalIsArr p.2 = false) →
      k ∈ jobValidFilters →
      jobFindAllQuery (pre ++ (k, QVal.vArr elems) :: rest) =
        Outcome.badRequest (dupFilterMsg k)) := by
  refine ⟨?_, ?_, ?_, ?_⟩
  · intro q k elems hm _
    obtain ⟨m, hval⟩ := validateQuery_some_of_arr companyValidFilters companyInvalidMsg q k elems hm
    exact ⟨m, companyFindAllQuery_badRequest_of_validate q m hval⟩
  · intro pre k elems rest hpre hk
    exact companyFindAllQuery_badRequest_of_validate _ _
      (validateQuery_first_arr companyValidFilters companyInvalidMsg pre k elems rest hpre hk)
  · intro q k elems hm _
    obtain ⟨m, hval⟩ := validateQuery_some_of_arr jobValidFilters jobInvalidMsg q k elems hm
    exact ⟨m, jobFindAllQuery_badRequest_of_validate q m hval⟩
  · intro pre k elems rest hpre hk
    exact jobFindAllQuery_badRequest_of_validate _ _
      (validateQuery_first_arr jobValidFilters jobInvalidMsg pre k elems rest hpre hk)

/-- Witness for C8 at one-key bags whose allowed key is array-valued. -/
theorem C8_witness :
    companyFindAllQuery [("name", QVal.vArr ["a", "b"])] =
      Outcome.badRequest (dupFilterMsg "name") ∧
    jobFindAllQuery [("title", QVal.vArr ["a", "b"])] =
      Outcome.badRequest (dupFilterMsg "title") :=
  ⟨by
    have h := C8_repeated_filter_key.2.1 [] "name" ["a", "b"] [] (by simp) (by decide)
    simpa using h,
   by
    have h := C8_repeated_filter_key.2.2.2 [] "title" ["a", "b"] [] (by simp) (by decide)
    simpa using h⟩

/-! ## Projection lemmas for the construction passes -/

lemma companyBuild_name (q : Bag) :
    (companyBuild q).name = strFilterVal (bagGet q "name") := rfl

lemma companyBuild_minEmployees (q : Bag) :
    (companyBuild q).minEmployees = numFilterVal (bagGet q "minEmployees") := rfl

lemma companyBuild_maxEmployees (q : Bag) :
    (companyBuild q).maxEmployees = numFilterVal (bagGet q "maxEmployees") := rfl

lemma jobBuild_title (q : Bag) :
    (jobBuild q).title = strFilterVal (bagGet q "title") := rfl

lemma jobBuild_minSalary (q : Bag) :
    (jobBuild q).minSalary = numFilterVal (bagGet q "minSalary") := rfl

lemma bagGet_ne_nil {q : Bag} {k : String} {v : QVal} (h : bagGet q k = some v) :
    q.length = 0 → False := by
  intro h0
  rw [List.length_eq_zero.mp h0] at h
  exact Option.noConfusion h

lemma numFilterVal_isSome_bagGet {q : Bag} {k : String} {m : QVal}
    (h : numFilterVal (bagGet q k) = some m) : q.length = 0 → False := by
  cases hw : bagGet q k with
  | none => rw [hw] at h; exact absurd h (by simp [numFilterVal])
  | some w => exact bagGet_ne_nil hw

/-! ## Claim theorems: the min/max range check -/

/-- C4 counterexample: both bounds present and numeracy-coercible, the
coerced lower bound 0 exceeding the coerced upper bound -1, yet
`Company.findAll` executes the filtered query instead of failing with a
`BadRequest` — the range check tests the coerced variables for truthiness
first, and 0 is falsy. -/
theorem C4_counterexample :
    strNumeric "0" = true ∧ strNumeric "-1" = true ∧
    jsParseIntQ (QVal.vStr "0") = QVal.vNum 0 ∧
    jsParseIntQ (QVal.vStr "-1") = QVal.vNum (-1) ∧
    (0 : Int) > -1 ∧
    companyFindAll (some [("minEmployees", QVal.vStr "0"), ("maxEmployees", QVal.vStr "-1")]) =
      Outcome.filtered "num_employees >= $1 AND num_employees <= $2"
        [QVal.vNum 0, QVal.vNum (-1)] := by
  refine ⟨by decide, by decide, by decide, by decide, by decide, by decide⟩

/-- C4 amended: for every validated bag in which both employee bounds are
applied with coerced values `a` and `b`, the inverted range is rejected
with the `BadRequest` "min cannot exceed max" message (and no query is
executed) provided both coerced values are truthy (nonzero); equal bounds
are never rejected by that message. -/
theorem C4_min_max_range (q : Bag) (a b : Int)
    (hval : validateQuery companyValidFilters companyInvalidMsg q = none)
    (hmin : numFilterVal (bagGet q "minEmployees") = some (QVal.vNum a))
    (hmax : numFilterVal (bagGet q "maxEmployees") = some (QVal.vNum b)) :
    (a ≠ 0 → b ≠ 0 → a > b →
      companyFindAllQuery q =
        Outcome.badRequest "'minEmployees' cannot be greater than 'maxEmployees'") ∧
    (a = b →
      companyFindAllQuery q ≠
        Outcome.badRequest "'minEmployees' cannot be greater than 'maxEmployees'") := by
  have hlen := numFilterVal_isSome_bagGet hmin
  constructor
  · intro ha hb hab
    simp only [companyFindAllQuery, if_neg hlen, hval, companyBuild_minEmployees,
      companyBuild_maxEmployees, hmin, hmax, optTruthy, jsTruthy, jsGt]
    simp [ha, hb, hab]
  · intro hab
    have hgt : decide (a > b) = false := decide_eq_false (by omega)
    simp only [companyFindAllQuery, if_neg hlen, hval, companyBuild_minEmployees,
      companyBuild_maxEmployees, hmin, hmax, optTruthy, jsTruthy, jsGt, hgt,
      Bool.and_false, Bool.false_eq_true, if_false]
    split <;> simp

/-- Witness for C4 at an inverted and at an equal pair of bounds. -/
theorem C4_witness :
    companyFindAllQuery [("minEmployees", QVal.vStr "5"), ("maxEmployees", QVal.vStr "3")] =
      Outcome.badRequest "'minEmployees' cannot be greater than 'maxEmployees'" ∧
    companyFindAllQuery [("minEmployees", QVal.vStr "4"), ("maxEmployees", QVal.vStr "4")] ≠
      Outcome.badRequest "'minEmployees' cannot be greater than 'maxEmployees'" :=
  ⟨(C4_min_max_range
      [("minEmployees", QVal.vStr "5"), ("maxEmployees", QVal.vStr "3")] 5 3
      (by decide) (by decide) (by decide)).1 (by decide) (by decide) (by decide),
   (C4_min_max_range
      [("minEmployees", QVal.vStr "4"), ("maxEmployees", QVal.vStr "4")] 4 4
      (by decide) (by decide) (by decide)).2 rfl⟩

/-! ## Claim theorems: the hasEquity flag -/

/-- C5: the `hasEquity` filter is applied exactly when the value is a
string equal, case-insensitively, to "true"; when applied the pushed bound
parameter is the number 0 (never the flag itself); and the two bags of the
claim build exactly the claimed fragments (the full bag's fragment is also
the one executed by `Job.findAll`). -/
theorem C5_hasEquity_filter :
    (∀ v : Option QVal, hasEquityCond v = true ↔
      ∃ s, v = some (QVal.vStr s) ∧ strToLower s = "true") ∧
    (∀ q : Bag, hasEquityCond (bagGet q "hasEquity") = true →
      (jobBuild q).values.getLast? = some (QVal.vNum 0)) ∧
    jobFindAll (some [("title", QVal.vStr "job"), ("minSalary", QVal.vNum 125000),
        ("hasEquity", QVal.vStr "true")]) =
      Outcome.filtered "title ILIKE $1 AND salary >= $2 AND equity > $3"
        [QVal.vStr "%job%", QVal.vNum 125000, QVal.vNum 0] ∧
    (jobBuild [("hasEquity", QVal.vStr "true")]).whereClause = "equity > $1" ∧
    (jobBuild [("hasEquity", QVal.vStr "true")]).values = [QVal.vNum 0] := by
  refine ⟨?_, ?_, by decide, by decide, by decide⟩
  · intro v
    constructor
    · intro h
      match v with
      | none => exact absurd h (by simp [hasEquityCond])
      | some (QVal.vStr s) =>
        refine ⟨s, rfl, ?_⟩
        exact (by simpa [hasEquityCond] using h :
          jsTruthy (QVal.vStr s) = true ∧ strToLower s = "true").2
      | some (QVal.vNum n) => exact absurd h (by simp [hasEquityCond])
      | some QVal.vNaN => exact absurd h (by simp [hasEquityCond])
      | some (QVal.vArr es) => exact absurd h (by simp [hasEquityCond])
    · rintro ⟨s, rfl, hs⟩
      have hne : s ≠ "" := by
        rintro rfl
        rw [show strToLower "" = "" from rfl] at hs
        exact absurd hs (by decide)
      simp [hasEquityCond, jsTruthy, hne, hs]
  · intro q h
    simp only [jobBuild, h, if_true]
    exact List.getLast?_concat _

/-- Witness for C5 at the bag holding only `hasEquity: "true"`. -/
theorem C5_witness :
    (jobBuild [("hasEquity", QVal.vStr "true")]).values.getLast? = some (QVal.vNum 0) :=
  C5_hasEquity_filter.2.1 [("hasEquity", QVal.vStr "true")] (by decide)

/-! ## The placeholder-index invariant -/

lemma jsStrictEq_str_num (s : String) (n : Int) :
    jsStrictEq (QVal.vStr s) (QVal.vNum n) = false := rfl

lemma jsStrictEq_num_num (a b : Int) :
    jsStrictEq (QVal.vNum a) (QVal.vNum b) = decide (a = b) := rfl

lemma jsIndexOf_nil (v : QVal) : jsIndexOf [] v = -1 := rfl

lemma jsIndexOf_cons (x : QVal) (xs : List QVal) (v : QVal) :
    jsIndexOf (x :: xs) v =
      if jsStrictEq x v then 0
      else if jsIndexOf xs v = -1 then -1 else jsIndexOf xs v + 1 := rfl

lemma numFilterVal_shape {v : Option QVal} {m : QVal} (h : numFilterVal v = some m) :
    (∃ a, m = QVal.vNum a) ∨ m = QVal.vNaN := by
  match v with
  | none => exact absurd h (by simp [numFilterVal])
  | some w =>
    rw [numFilterVal] at h
    by_cases hg : jsTruthy w && !jsIsNaN w
    · rw [if_pos hg] at h
      obtain rfl : jsParseIntQ w = m := Option.some.injEq _ _ ▸ h
      match w with
      | QVal.vStr s =>
        rw [jsParseIntQ]
        cases strParseInt s with
        | none => exact Or.inr rfl
        | some n => exact Or.inl ⟨n, rfl⟩
      | QVal.vNum n => exact Or.inl ⟨n, rfl⟩
      | QVal.vNaN => exact Or.inr rfl
      | QVal.vArr es => exact Or.inr rfl
    · rw [if_neg hg] at h
      exact Option.noConfusion h

lemma numFilterVal_vNum {v : Option QVal} {m : QVal} (h : numFilterVal v = some m)
    (hnan : m ≠ QVal.vNaN) : ∃ a, m = QVal.vNum a := by
  rcases numFilterVal_shape h with ha | rfl
  · exact ha
  · exact absurd rfl hnan

lemma jsIndexOf_one_num (a : Int) : jsIndexOf [QVal.vNum a] (QVal.vNum a) = 0 := by
  simp [jsIndexOf, jsStrictEq]

lemma jsIndexOf_str_num_snd (p : String) (a : Int) :
    jsIndexOf [QVal.vStr p, QVal.vNum a] (QVal.vNum a) = 1 := by
  simp [jsIndexOf, jsStrictEq]

lemma jsIndexOf_two_num_same (a : Int) :
    jsIndexOf [QVal.vNum a, QVal.vNum a] (QVal.vNum a) = 0 := by
  simp [jsIndexOf, jsStrictEq]

lemma jsIndexOf_two_num_ne (a b : Int) (h : a ≠ b) :
    jsIndexOf [QVal.vNum a, QVal.vNum b] (QVal.vNum b) = 1 := by
  simp [jsIndexOf, jsStrictEq, h]

lemma jsIndexOf_str_two_num_same (p : String) (a : Int) :
    jsIndexOf [QVal.vStr p, QVal.vNum a, QVal.vNum a] (QVal.vNum a) = 1 := by
  simp [jsIndexOf, jsStrictEq]

lemma jsIndexOf_str_two_num_ne (p : String) (a b : Int) (h : a ≠ b) :
    jsIndexOf [QVal.vStr p, QVal.vNum a, QVal.vNum b] (QVal.vNum b) = 2 := by
  simp [jsIndexOf, jsStrictEq, h]

lemma companyBuild_positional (q : Bag)
    (hminN : numFilterVal (bagGet q "minEmployees") ≠ some QVal.vNaN)
    (hmaxN : numFilterVal (bagGet q "maxEmployees") ≠ some QVal.vNaN)
    (h00 : ¬ (numFilterVal (bagGet q "minEmployees") = some (QVal.vNum 0) ∧
              numFilterVal (bagGet q "maxEmployees") = some (QVal.vNum 0))) :
    ((companyBuild q).whereClause, (companyBuild q).values) =
      positionalFragment (companyAppliedFilters q) := by
  rcases hn : strFilterVal (bagGet q "name") with _ | s <;>
    rcases hm : numFilterVal (bagGet q "minEmployees") with _ | m <;>
    rcases hx : numFilterVal (bagGet q "maxEmployees") with _ | x
  · simp only [companyBuild, companyAppliedFilters, positionalFragment, positionalClauses,
      hn, hm, hx]
    decide
  · obtain ⟨b, rfl⟩ := numFilterVal_vNum hx (fun h => hmaxN (by rw [hx, h]))
    simp only [companyBuild, companyAppliedFilters, positionalFragment, positionalClauses,
      hn, hm, hx]
    simp [jsIndexOf_one_num]
    decide
  · obtain ⟨a, rfl⟩ := numFilterVal_vNum hm (fun h => hminN (by rw [hm, h]))
    simp only [companyBuild, companyAppliedFilters, positionalFragment, positionalClauses,
      hn, hm, hx]
    simp [jsIndexOf_one_num]
    decide
  · obtain ⟨a, rfl⟩ := numFilterVal_vNum hm (fun h => hminN (by rw [hm, h]))
    obtain ⟨b, rfl⟩ := numFilterVal_vNum hx (fun h => hmaxN (by rw [hx, h]))
    by_cases hab : a = b
    · subst hab
      have ha : a ≠ 0 := fun h0 => h00 (by rw [h0] at hm hx; exact ⟨hm, hx⟩)
      simp only [companyBuild, companyAppliedFilters, positionalFragment, positionalClauses,
        hn, hm, hx, jsTruthy, jsStrictEq_num_num]
      simp [ha, jsIndexOf_one_num, jsIndexOf_two_num_same]
      decide
    · simp only [companyBuild, companyAppliedFilters, positionalFragment, positionalClauses,
        hn, hm, hx, jsTruthy, jsStrictEq_num_num]
      simp [hab, jsIndexOf_one_num, jsIndexOf_two_num_ne a b hab]
      decide
  · simp only [companyBuild, companyAppliedFilters, positionalFragment, positionalClauses,
      hn, hm, hx]
    simp
    decide
  · obtain ⟨b, rfl⟩ := numFilterVal_vNum hx (fun h => hmaxN (by rw [hx, h]))
    simp only [companyBuild, companyAppliedFilters, positionalFragment, positionalClauses,
      hn, hm, hx]
    simp [jsIndexOf_str_num_snd]
    decide
  · obtain ⟨a, rfl⟩ := numFilterVal_vNum hm (fun h => hminN (by rw [hm, h]))
    simp only [companyBuild, companyAppliedFilters, positionalFragment, positionalClauses,
      hn, hm, hx]
    simp [jsIndexOf_str_num_snd]
    decide
  · obtain ⟨a, rfl⟩ := numFilterVal_vNum hm (fun h => hminN (by rw [hm, h]))
    obtain ⟨b, rfl⟩ := numFilterVal_vNum hx (fun h => hmaxN (by rw [hx, h]))
    by_cases hab : a = b
    · subst hab
      have ha : a ≠ 0 := fun h0 => h00 (by rw [h0] at hm hx; exact ⟨hm, hx⟩)
      simp only [companyBuild, companyAppliedFilters, positionalFragment, positionalClauses,
        hn, hm, hx, jsTruthy, jsStrictEq_num_num]
      simp [ha, jsIndexOf_str_num_snd, jsIndexOf_str_two_num_same]
      decide
    · simp only [companyBuild, companyAppliedFilters, positionalFragment, positionalClauses,
        hn, hm, hx, jsTruthy, jsStrictEq_num_num]
      simp [hab, jsIndexOf_str_num_snd, jsIndexOf_str_two_num_ne ("%" ++ s ++ "%") a b hab]
      decide

lemma jobBuild_positional (q : Bag)
    (hminN : numFilterVal (bagGet q "minSalary") ≠ some QVal.vNaN) :
    ((jobBuild q).whereClause, (jobBuild q).values) =
      positionalFragment (jobAppliedFilters q) := by
  rcases hn : strFilterVal (bagGet q "title") with _ | s <;>
    rcases hm : numFilterVal (bagGet q "minSalary") with _ | m <;>
    by_cases hx : hasEquityCond (bagGet q "hasEquity")
  · simp only [jobBuild, jobAppliedFilters, positionalFragment, positionalClauses,
      hn, hm, hx, if_true]
    simp [jsIndexOf_one_num]
    decide
  · simp only [jobBuild, jobAppliedFilters, positionalFragment, positionalClauses,
      hn, hm, hx, if_false]
    simp
    decide
  · obtain ⟨a, rfl⟩ := numFilterVal_vNum hm (fun h => hminN (by rw [hm, h]))
    by_cases ha0 : a = 0
    · subst ha0
      simp only [jobBuild, jobAppliedFilters, positionalFragment, positionalClauses,
        hn, hm, hx, if_true]
      simp [jsIndexOf_one_num, jsIndexOf_two_num_same]
      decide
    · simp only [jobBuild, jobAppliedFilters, positionalFragment, positionalClauses,
        hn, hm, hx, if_true]
      simp [ha0, jsIndexOf_one_num, jsIndexOf_two_num_ne a 0 ha0]
      decide
  · obtain ⟨a, rfl⟩ := numFilterVal_vNum hm (fun h => hminN (by rw [hm, h]))
    simp only [jobBuild, jobAppliedFilters, positionalFragment, positionalClauses,
      hn, hm, hx, if_false]
    simp [jsIndexOf_one_num]
    decide
  · simp only [jobBuild, jobAppliedFilters, positionalFragment, positionalClauses,
      hn, hm, hx, if_true]
    simp [jsIndexOf_str_num_snd]
    decide
  · simp only [jobBuild, jobAppliedFilters, positionalFragment, positionalClauses,
      hn, hm, hx, if_false]
    simp
    decide
  · obtain ⟨a, rfl⟩ := numFilterVal_vNum hm (fun h => hminN (by rw [hm, h]))
    by_cases ha0 : a = 0
    · subst ha0
      simp only [jobBuild, jobAppliedFilters, positionalFragment, positionalClauses,
        hn, hm, hx, if_true]
      simp [jsIndexOf_str_num_snd, jsIndexOf_str_two_num_same]
      decide
    · simp only [jobBuild, jobAppliedFilters, positionalFragment, positionalClauses,
        hn, hm, hx, if_true]
      simp [ha0, jsIndexOf_str_num_snd, jsIndexOf_str_two_num_ne ("%" ++ s ++ "%") a 0 ha0]
      decide
  · obtain ⟨a, rfl⟩ := numFilterVal_vNum hm (fun h => hminN (by rw [hm, h]))
    simp only [jobBuild, jobAppliedFilters, positionalFragment, positionalClauses,
      hn, hm, hx, if_false]
    simp [jsIndexOf_str_num_snd]
    decide

/-! ## Claim theorems: the placeholder-index invariant -/

/-- C1 counterexample: the bag `{minEmployees: "0", maxEmployees: "0"}` is
accepted by validation and both filters are applied, but the second applied
clause's placeholder is `$1` (the `values.indexOf` lookup finds the first
`0`, and the `min === max` repair is skipped because `0` is falsy), not
`$2`, and the `" AND "` separator is missing as well. -/
theorem C1_counterexample :
    validateQuery companyValidFilters companyInvalidMsg
        [("minEmployees", QVal.vStr "0"), ("maxEmployees", QVal.vStr "0")] = none ∧
    (companyBuild [("minEmployees", QVal.vStr "0"), ("maxEmployees", QVal.vStr "0")]).whereClause =
      "num_employees >= $1num_employees <= $1" ∧
    (companyBuild [("minEmployees", QVal.vStr "0"), ("maxEmployees", QVal.vStr "0")]).values =
      [QVal.vNum 0, QVal.vNum 0] ∧
    positionalFragment (companyAppliedFilters
        [("minEmployees", QVal.vStr "0"), ("maxEmployees", QVal.vStr "0")]) =
      ("num_employees >= $1 AND num_employees <= $2", [QVal.vNum 0, QVal.vNum 0]) ∧
    (companyBuild [("minEmployees", QVal.vStr "0"), ("maxEmployees", QVal.vStr "0")]).whereClause ≠
      (positionalFragment (companyAppliedFilters
        [("minEmployees", QVal.vStr "0"), ("maxEmployees", QVal.vStr "0")])).1 := by
  refine ⟨by decide, by decide, by decide, by decide, by decide⟩

/-- C1 amended: for every validated filter bag, the constructed fragment
equals the positional one — the Nth applied clause carries placeholder
index N and binds the Nth value — provided every applied numeric filter's
`parseInt` result is an actual number, and, for companies, the two employee
bounds are not both applied with coerced value 0 (the counterexample case,
where the value-lookup index repair fails). -/
theorem C1_placeholder_invariant :
    (∀ q : Bag,
      validateQuery companyValidFilters companyInvalidMsg q = none →
      numFilterVal (bagGet q "minEmployees") ≠ some QVal.vNaN →
      numFilterVal (bagGet q "maxEmployees") ≠ some QVal.vNaN →
      ¬ (numFilterVal (bagGet q "minEmployees") = some (QVal.vNum 0) ∧
         numFilterVal (bagGet q "maxEmployees") = some (QVal.vNum 0)) →
      ((companyBuild q).whereClause, (companyBuild q).values) =
        positionalFragment (companyAppliedFilters q)) ∧
    (∀ q : Bag,
      validateQuery jobValidFilters jobInvalidMsg q = none →
      numFilterVal (bagGet q "minSalary") ≠ some QVal.vNaN →
      ((jobBuild q).whereClause, (jobBuild q).values) =
        positionalFragment (jobAppliedFilters q)) :=
  ⟨fun q _ => companyBuild_positional q, fun q _ => jobBuild_positional q⟩

/-- Witness for C1 at a bag with equal nonzero bounds and at a jobs bag in
which `minSalary`'s coerced value 0 equals `hasEquity`'s bound 0. -/
theorem C1_witness :
    ((companyBuild [("name", QVal.vStr "net"), ("minEmployees", QVal.vStr "2"),
        ("maxEmployees", QVal.vStr "2")]).whereClause,
      (companyBuild [("name", QVal.vStr "net"), ("minEmployees", QVal.vStr "2"),
        ("maxEmployees", QVal.vStr "2")]).values) =
      positionalFragment (companyAppliedFilters
        [("name", QVal.vStr "net"), ("minEmployees", QVal.vStr "2"),
         ("maxEmployees", QVal.vStr "2")]) ∧
    ((jobBuild [("minSalary", QVal.vStr "0"), ("hasEquity", QVal.vStr "true")]).whereClause,
      (jobBuild [("minSalary", QVal.vStr "0"), ("hasEquity", QVal.vStr "true")]).values) =
      positionalFragment (jobAppliedFilters
        [("minSalary", QVal.vStr "0"), ("hasEquity", QVal.vStr "true")]) :=
  ⟨C1_placeholder_invariant.1
      [("name", QVal.vStr "net"), ("minEmployees", QVal.vStr "2"),
       ("maxEmployees", QVal.vStr "2")]
      (by decide) (by decide) (by decide) (by decide),
   C1_placeholder_invariant.2
      [("minSalary", QVal.vStr "0"), ("hasEquity", QVal.vStr "true")]
      (by decide) (by decide)⟩

/-! ## Claim theorems: numeric threshold filters -/

/-- `isNaN` of a possibly-`undefined` value (`isNaN(undefined)` is true). -/
def optIsNaN : Option QVal → Bool
  | some w => jsIsNaN w
  | none => true

/-- C6 counterexample: `minEmployees: "0"` is present and
numeracy-coercible with integer coercion 0, yet `Company.findAll` executes
the unfiltered query — no comparison clause reaches the executed query,
because the coerced 0 is falsy in the guard and in the all-falsy
fallback. -/
theorem C6_counterexample :
    strNumeric "0" = true ∧
    jsParseIntQ (QVal.vStr "0") = QVal.vNum 0 ∧
    companyFindAll (some [("minEmployees", QVal.vStr "0")]) = Outcome.unfiltered ∧
    Outcome.unfiltered ≠ Outcome.filtered "num_employees >= $1" [QVal.vNum 0] := by
  refine ⟨by decide, by decide, by decide, by decide⟩

/-- C6 amended: a numeric filter is applied to the fragment exactly when
its raw value is truthy and not `NaN` under numeric coercion (so a
coercible string "0" is applied while a present number 0 is not); an
applied `minSalary` always reaches the executed jobs query, including
coerced value 0; an applied nonzero `minEmployees` with no `maxEmployees`
reaches the executed companies query; and a sole `minEmployees` coercing to
0 falls back to the unfiltered companies query, while the same value next
to a truthy `maxEmployees` is executed. -/
theorem C6_numeric_filter_application :
    (∀ v : Option QVal, (numFilterVal v).isSome = (optTruthy v && !optIsNaN v)) ∧
    (∀ (q : Bag) (a : Int),
      validateQuery jobValidFilters jobInvalidMsg q = none →
      numFilterVal (bagGet q "minSalary") = some (QVal.vNum a) →
      jobFindAllQuery q = Outcome.filtered (jobBuild q).whereClause (jobBuild q).values) ∧
    (∀ (q : Bag) (a : Int),
      validateQuery companyValidFilters companyInvalidMsg q = none →
      numFilterVal (bagGet q "minEmployees") = some (QVal.vNum a) →
      a ≠ 0 →
      bagGet q "maxEmployees" = none →
      companyFindAllQuery q =
        Outcome.filtered (companyBuild q).whereClause (companyBuild q).values) ∧
    jobFindAll (some [("minSalary", QVal.vStr "0")]) =
      Outcome.filtered "salary >= $1" [QVal.vNum 0] ∧
    companyFindAll (some [("minEmployees", QVal.vStr "0"), ("maxEmployees", QVal.vStr "5")]) =
      Outcome.filtered "num_employees >= $1 AND num_employees <= $2"
        [QVal.vNum 0, QVal.vNum 5] ∧
    companyFindAll (some [("minEmployees", QVal.vStr "0")]) = Outcome.unfiltered := by
  refine ⟨?_, ?_, ?_, by decide, by decide, by decide⟩
  · intro v
    match v with
    | none => rfl
    | some w =>
      simp only [numFilterVal, optTruthy, optIsNaN]
      by_cases h1 : jsTruthy w <;> by_cases h2 : jsIsNaN w <;> simp [h1, h2]
  · intro q a hval hmin
    have hlen := numFilterVal_isSome_bagGet hmin
    have hms := jobBuild_minSalary q
    rw [hmin] at hms
    simp only [jobFindAllQuery, if_neg hlen, hval]
    by_cases ha : a = 0
    · subst ha
      simp [hms]
    · simp [hms, optTruthy, jsTruthy, ha]
  · intro q a hval hmin ha hmaxRaw
    have hlen := numFilterVal_isSome_bagGet hmin
    have hms := companyBuild_minEmployees q
    rw [hmin] at hms
    have hmx := companyBuild_maxEmployees q
    rw [hmaxRaw] at hmx
    simp only [companyFindAllQuery, if_neg hlen, hval]
    simp [hms, hmx, optTruthy, jsTruthy, ha, numFilterVal]

/-- Witness for C6's universally quantified parts at one-filter bags. -/
theorem C6_witness :
    jobFindAllQuery [("minSalary", QVal.vStr "0")] =
      Outcome.filtered (jobBuild [("minSalary", QVal.vStr "0")]).whereClause
        (jobBuild [("minSalary", QVal.vStr "0")]).values ∧
    companyFindAllQuery [("minEmployees", QVal.vStr "7")] =
      Outcome.filtered (companyBuild [("minEmployees", QVal.vStr "7")]).whereClause
        (companyBuild [("minEmployees", QVal.vStr "7")]).values :=
  ⟨C6_numeric_filter_application.2.1 [("minSalary", QVal.vStr "0")] 0 (by decide) (by decide),
   C6_numeric_filter_application.2.2.1 [("minEmployees", QVal.vStr "7")] 7
     (by decide) (by decide) (by decide) (by decide)⟩
